import Mathlib

/-
Verification development for the event-log analysis pipeline of
`src/analyze.py` (process-detector).  Timestamps and durations are modelled
as exact rationals (hours); Python's `round(x, n)` (banker's rounding) is
modelled by `pyRound0` / `pyRound1` on ℚ.  DataFrame columns become record
fields, DataFrame row sets become lists, and the pandas operations
(groupby/shift/median/filter) are translated operation by operation.
-/

namespace PD

/-- Python `round(x)` to an integer: round half to even (banker's rounding),
as used by `round(..., 0)` in `analyze.py`. -/
def roundHalfEven (x : ℚ) : ℤ :=
  let n : ℤ := ⌊x⌋
  let frac : ℚ := x - n
  if frac < 1/2 then n
  else if 1/2 < frac then n + 1
  else if n % 2 = 0 then n else n + 1

/-- `round(x, 0)` from `analyze.py` (result kept as a rational). -/
def pyRound0 (x : ℚ) : ℚ := (roundHalfEven x : ℚ)

/-- `round(x, 1)` from `analyze.py`. -/
def pyRound1 (x : ℚ) : ℚ := (roundHalfEven (10 * x) : ℚ) / 10

/-- A cleaned event-log row with the canonical columns of `analyze.py`
(`case_id`, `event`, `timestamp`); the timestamp is in hours. -/
structure Event where
  case_id : String
  event : String
  ts : ℚ
deriving DecidableEq

/-- One derived step (lines 185-189 of `analyze.py`): the row keeps the
`case_id` and `event` of the earlier record and the duration to the next
record of the same case, in hours. -/
structure Step where
  case_id : String
  event : String
  duration_hours : ℚ
deriving DecidableEq

/-- Pair an event with the immediately following event of its (sorted) case
group — this is `groupby("case_id")["timestamp"].shift(-1)` restricted to one
case: the last row gets NaT and is dropped by `dropna`. -/
def pairsL : List Event → List (Event × Event)
  | [] => []
  | [_] => []
  | a :: b :: t => (a, b) :: pairsL (b :: t)

/-- A step built from two consecutive events of one case. -/
def stepOf (a b : Event) : Step := ⟨a.case_id, a.event, b.ts - a.ts⟩

/-- `df.sort_values(..., "timestamp")` within one case group (stable sort by
timestamp). -/
def sortRows (l : List Event) : List Event :=
  List.insertionSort (fun a b => a.ts ≤ b.ts) l

/-- The distinct case ids of the log (the `groupby("case_id")` keys). -/
def caseIds (rows : List Event) : List String := (rows.map (·.case_id)).dedup

/-- Steps contributed by a single case group. -/
def caseSteps (l : List Event) : List Step :=
  (pairsL (sortRows l)).map (fun p => stepOf p.1 p.2)

/-- All steps of the log, before the negative-duration guard:
lines 185-188 of `analyze.py`. -/
def rawSteps (rows : List Event) : List Step :=
  (caseIds rows).flatMap (fun c => caseSteps (rows.filter (fun r => r.case_id = c)))

/-- `df = df[df["duration_hours"] >= 0]` (line 189): the final step set. -/
def steps (rows : List Event) : List Step :=
  (rawSteps rows).filter (fun s => 0 ≤ s.duration_hours)

/-- Ascending sort of durations (used by the median). -/
def sortRat (l : List ℚ) : List ℚ := List.insertionSort (· ≤ ·) l

/-- The pandas `median`: 50th percentile with linear interpolation — the
middle element for odd counts, the average of the two middle elements for
even counts; 0 for an empty list (never used on empty groups). -/
def median (l : List ℚ) : ℚ :=
  let s := sortRat l
  let n := s.length
  if n = 0 then 0
  else if n % 2 = 1 then s.getD (n / 2) 0
  else (s.getD (n / 2 - 1) 0 + s.getD (n / 2) 0) / 2

/-- `baseline = df.groupby("event")["duration_hours"].median()` (line 195). -/
def baseline (ss : List Step) (ev : String) : ℚ :=
  median ((ss.filter (fun s => s.event = ev)).map (·.duration_hours))

/-- The closed SLA categories of `map_sla_type` (lines 353-362). -/
inductive SlaType where
  | first_response
  | waiting
  | resolution
  | other
deriving DecidableEq

/-- Case-insensitive substring test, modelling Python's `needle in s` on the
lowercased label. -/
def strContains (hay : List Char) (needle : String) : Bool :=
  decide (needle.toList <:+: hay)

/-- `map_sla_type` (lines 353-362 of `analyze.py`): ordered keyword matching
on the lowercased event label, first match wins. -/
def map_sla_type (event : String) : SlaType :=
  let s := event.toList.map Char.toLower
  if strContains s "waiting" then .waiting
  else if strContains s "resolved" || strContains s "closed" then .resolution
  else if strContains s "assigned" || strContains s "created"
       || strContains s "response" || strContains s "triage" then .first_response
  else .other

/-- A fully annotated step row: the step-level DataFrame after lines
195-199 and 365-366 of `analyze.py` (joined baseline, delay flag, impact,
SLA type, SLA breach flag). -/
structure AnnStep where
  case_id : String
  event : String
  duration_hours : ℚ
  baseline_hours : ℚ
  is_delay : Bool
  impact_hours : ℚ
  sla_type : SlaType
  sla_breach : Bool
deriving DecidableEq

/-- Lines 196-199 and 365-366: join the per-label baseline onto every step and
compute `is_delay` (`duration > 1.5 * baseline`), `impact_hours`
(`(duration - baseline).clip(lower=0)`), `sla_type` and `sla_breach`
(`duration > baseline * 1.2`). -/
def annotateSteps (ss : List Step) : List AnnStep :=
  ss.map (fun s =>
    let b := baseline ss s.event
    { case_id := s.case_id
      event := s.event
      duration_hours := s.duration_hours
      baseline_hours := b
      is_delay := decide ((3/2 : ℚ) * b < s.duration_hours)
      impact_hours := max 0 (s.duration_hours - b)
      sla_type := map_sla_type s.event
      sla_breach := decide (b * (6/5 : ℚ) < s.duration_hours) })

/-- The per-SLA-type record stored in `sla_by_type` (lines 383-388). -/
structure SlaStats where
  steps : Nat
  breaches : Nat
  compliance_pct : ℚ
  monthly_risk_eur_est : ℚ
deriving DecidableEq

/-- `breach_hours` (line 379): the summed impact hours of breaching steps,
gated on a positive rate. -/
def breachHours (sub : List AnnStep) (eur_per_hour : ℚ) : ℚ :=
  if 0 < eur_per_hour then ((sub.filter (·.sla_breach)).map (·.impact_hours)).sum
  else 0

/-- `risk_period_eur` (line 380). -/
def riskPeriodEur (sub : List AnnStep) (eur_per_hour : ℚ) : ℚ :=
  if 0 < eur_per_hour then breachHours sub eur_per_hour * eur_per_hour else 0

/-- One entry of `sla_by_type` (lines 374-388): step and breach counts,
rounded compliance percentage, and the rounded monthly risk estimate (which
falls back to the un-extrapolated period risk when extrapolation is off). -/
def slaStats (sub : List AnnStep) (eur_per_hour : ℚ) (canExtrapolate : Bool)
    (monthlyFactor : ℚ) : SlaStats :=
  let n := sub.length
  let b := (sub.filter (·.sla_breach)).length
  { steps := n
    breaches := b
    compliance_pct := pyRound1 (if 0 < n then 100 * ((n : ℚ) - b) / n else 0)
    monthly_risk_eur_est :=
      pyRound0 (if 0 < eur_per_hour ∧ canExtrapolate = true
        then riskPeriodEur sub eur_per_hour * monthlyFactor
        else riskPeriodEur sub eur_per_hour) }

/-- The loop of lines 369-388, generalized over the list of SLA types it
visits (the source iterates `["first_response", "waiting", "resolution"]`);
empty groups are skipped (`if sub.empty: continue`). -/
def slaByTypeAux (ts : List SlaType) (ann : List AnnStep) (eur_per_hour : ℚ)
    (canExtrapolate : Bool) (monthlyFactor : ℚ) : List (SlaType × SlaStats) :=
  ts.filterMap (fun t =>
    let sub := ann.filter (fun a => a.sla_type = t)
    if sub.isEmpty then none
    else some (t, slaStats sub eur_per_hour canExtrapolate monthlyFactor))

/-- `sla_by_type` (lines 368-388), as an association list in the insertion
order of the Python dict. -/
def slaByType (ann : List AnnStep) (eur_per_hour : ℚ) (canExtrapolate : Bool)
    (monthlyFactor : ℚ) : List (SlaType × SlaStats) :=
  slaByTypeAux [.first_response, .waiting, .resolution] ann eur_per_hour
    canExtrapolate monthlyFactor

/-- First-match lookup in an association list keyed by SLA type
(the Python `dict` access `sla_by_type.get(t)` / `(h.get("sla_by_type") or {}).get(t)`). -/
def lookupT {β : Type} : List (SlaType × β) → SlaType → Option β
  | [], _ => none
  | p :: rest, t => if p.1 = t then some p.2 else lookupT rest t

/-- One history snapshot as far as the trend engine reads it: the
`sla_by_type` mapping of a past run (`metrics_history.json` entries). -/
abbrev HistEntry : Type := List (SlaType × SlaStats)

/-- The `upgrade_signals` entry types (lines 419-448). -/
inductive SigType where
  | lage_compliance
  | financieel_risico
  | negatieve_trend
deriving DecidableEq

/-- Signal severity. -/
inductive Sev where
  | high
  | medium
deriving DecidableEq

/-- One upgrade signal (the NL message string is presentation only and is
omitted; it is determined by the other fields). -/
structure Signal where
  type : SigType
  severity : Sev
  sla_type : SlaType
deriving DecidableEq

/-- The compliance / financial-risk signal loop (lines 413-432): for each
`sla_by_type` entry, a `lage_compliance` signal when compliance < 90
(high below 80) and a `financieel_risico` signal when the monthly risk is at
least 1000 (high from 10000). -/
def baseSignals (sla : List (SlaType × SlaStats)) : List Signal :=
  sla.flatMap (fun p =>
    (if p.2.compliance_pct < 90 then
      [⟨.lage_compliance, if p.2.compliance_pct < 80 then .high else .medium, p.1⟩]
     else [])
    ++
    (if 1000 ≤ p.2.monthly_risk_eur_est then
      [⟨.financieel_risico, if 10000 ≤ p.2.monthly_risk_eur_est then .high else .medium, p.1⟩]
     else []))

/-- The compliance values the trend block reads (lines 437-441): for each of
the last three history entries, the `compliance_pct` of type `t` when the
entry has that type, else `None`. -/
def comps3 (hist : List HistEntry) (t : SlaType) : List (Option ℚ) :=
  (hist.drop (hist.length - 3)).map
    (fun h => (lookupT h t).map (·.compliance_pct))

/-- `None not in comps and comps[0] > comps[1] > comps[2]` (line 442): three
values, all present, strictly decreasing. -/
def decreasing3 (l : List (Option ℚ)) : Bool :=
  match l with
  | [some a, some b, some c] => decide (b < a) && decide (c < b)
  | _ => false

/-- The trend condition of lines 435-442 for one SLA type: at least three
history entries, all three values present, strictly decreasing. -/
def trendFires (hist : List HistEntry) (t : SlaType) : Bool :=
  if 3 ≤ hist.length then decreasing3 (comps3 hist t)
  else false

/-- The `negatieve_trend` signals (lines 434-448): for every type of the
current `sla_by_type`, a high-severity signal when the trend condition holds
on the history (which, at this point of the run, already ends with the
current snapshot). -/
def trendSignals (hist : List HistEntry) (sla : List (SlaType × SlaStats)) :
    List Signal :=
  (sla.map Prod.fst).filterMap (fun t =>
    if trendFires hist t then some ⟨.negatieve_trend, .high, t⟩ else none)

/-- All generated upgrade signals in generation order: the per-type
compliance/risk signals, then the trend signals. -/
def generatedSignals (sla : List (SlaType × SlaStats)) (hist : List HistEntry) :
    List Signal :=
  baseSignals sla ++ trendSignals hist sla

/-- `current_metrics["upgrade_signals"] = upgrade_signals[:5]` (line 503). -/
def upgradeSignalsOut (sla : List (SlaType × SlaStats)) (hist : List HistEntry) :
    List Signal :=
  (generatedSignals sla hist).take 5

/-- One `ai_advice` item; the fixed title/summary/action strings of lines
462-496 are presentation only (determined by `sla_type`) and are omitted. -/
structure Advice where
  sla_type : SlaType
  monthly_risk_reduction_est : ℚ
deriving DecidableEq

/-- The advice item built for one ranking entry (lines 461-496): fixed
reduction fractions 0.25 / 0.40 / 0.30 for first_response / waiting /
resolution; no branch exists for `other`. -/
def adviceItem (t : SlaType) (risk : ℚ) : Option Advice :=
  match t with
  | .first_response => some ⟨t, pyRound0 (risk * (1/4))⟩
  | .waiting => some ⟨t, pyRound0 (risk * (2/5))⟩
  | .resolution => some ⟨t, pyRound0 (risk * (3/10))⟩
  | .other => none

/-- `ranking` (lines 453-457): the `(type, monthly_risk)` pairs of
`sla_by_type`, stably sorted by descending risk (Python's `sorted` with
`reverse=True` keeps ties in insertion order, which this insertion sort
reproduces). -/
def ranking (sla : List (SlaType × SlaStats)) : List (SlaType × ℚ) :=
  List.insertionSort (fun a b => b.2 ≤ a.2)
    (sla.map (fun p => (p.1, p.2.monthly_risk_eur_est)))

/-- The advice loop of lines 458-498: skip non-positive risks (`continue`
bypasses the length check), append the item for the type, stop as soon as
three items have been collected. -/
def adviceLoop : List (SlaType × ℚ) → List Advice → List Advice
  | [], acc => acc
  | (t, risk) :: rest, acc =>
    if risk ≤ 0 then adviceLoop rest acc
    else
      let acc' := match adviceItem t risk with
        | some a => acc ++ [a]
        | none => acc
      if 3 ≤ acc'.length then acc' else adviceLoop rest acc'

/-- `ai_advice` (lines 450-498). -/
def aiAdvice (sla : List (SlaType × SlaStats)) : List Advice :=
  adviceLoop (ranking sla) []

/-- `period_hours` (lines 172-176): max timestamp minus min timestamp of the
cleaned rows, 0 for an empty log. -/
def periodHours (rows : List Event) : ℚ :=
  match rows.map (·.ts) with
  | [] => 0
  | t :: ts => ts.foldl max t - ts.foldl min t

/-- The metrics snapshot of one run, restricted to the analysis fields the
claims are about (lines 256-283 and 501-504 of `analyze.py`). -/
structure Metrics where
  period_hours : ℚ
  total_impact_hours : ℚ
  total_impact_eur : ℚ
  monthly_hours_est : ℚ
  monthly_eur_est : ℚ
  yearly_hours_est : ℚ
  yearly_eur_est : ℚ
  fte_equivalent : ℚ
  potential_saving_hours : ℚ
  potential_saving_eur : ℚ
  sla_by_type : List (SlaType × SlaStats)
  upgrade_signals : List Signal
  ai_advice : List Advice
deriving DecidableEq

/-- The whole analysis run of `analyze.py` on cleaned rows: step derivation,
baseline/impact, totals, extrapolation (lines 172-237), SLA intelligence,
history append, signals and advice (lines 353-504).  `history` is the prior
content of `metrics_history.json` (as read by the trend engine). -/
def analyze (rows : List Event) (eur_per_hour : ℚ) (history : List HistEntry) :
    Metrics :=
  let ph := periodHours rows
  let canE : Bool := decide ((1 : ℚ) ≤ ph)
  let ann := annotateSteps (steps rows)
  let delays := ann.filter (·.is_delay)
  let total_impact_hours := (delays.map (·.impact_hours)).sum
  let total_impact_eur :=
    (delays.map (fun a =>
      if 0 < eur_per_hour then a.impact_hours * eur_per_hour else 0)).sum
  let monthly_factor := if canE = true then (720 : ℚ) / ph else 0
  let monthly_hours_est := if canE = true then total_impact_hours * monthly_factor else 0
  let monthly_eur_est :=
    if canE = true ∧ 0 < eur_per_hour then total_impact_eur * monthly_factor else 0
  let yearly_hours_est := if canE = true then monthly_hours_est * 12 else 0
  let yearly_eur_est := if canE = true then monthly_eur_est * 12 else 0
  let fte_equivalent := if canE = true then monthly_hours_est / 160 else 0
  let potential_saving_hours := if canE = true then monthly_hours_est * (1/5) else 0
  let potential_saving_eur :=
    if canE = true ∧ 0 < eur_per_hour then monthly_eur_est * (1/5) else 0
  let sla := slaByType ann eur_per_hour canE monthly_factor
  let histAfter := history ++ [sla]
  { period_hours := ph
    total_impact_hours := total_impact_hours
    total_impact_eur := total_impact_eur
    monthly_hours_est := monthly_hours_est
    monthly_eur_est := monthly_eur_est
    yearly_hours_est := yearly_hours_est
    yearly_eur_est := yearly_eur_est
    fte_equivalent := fte_equivalent
    potential_saving_hours := potential_saving_hours
    potential_saving_eur := potential_saving_eur
    sla_by_type := sla
    upgrade_signals := upgradeSignalsOut sla histAfter
    ai_advice := aiAdvice sla }

/-- `COLUMN_ALIASES` (lines 141-145 of `analyze.py`): accepted synonym lists
per canonical field. -/
def COLUMN_ALIASES : List (String × List String) :=
  [("case_id", ["case_id", "case", "caseid", "ticket_id", "order_id"]),
   ("timestamp", ["timestamp", "time", "datetime", "date"]),
   ("event", ["event", "activity", "step", "status", "action", "event_name"])]

/-- The inner loop of lines 148-152: the first synonym present among the
input columns, if any. -/
def resolveField (cols : List String) (options : List String) : Option String :=
  options.find? (fun o => cols.contains o)

/-- `missing` (line 154): the canonical fields with no matching synonym. -/
def missingFields (cols : List String) : List String :=
  (COLUMN_ALIASES.filter (fun p => (resolveField cols p.2).isNone)).map (·.1)

/-- The schema failure raised at line 156; it names the missing canonical
fields and the columns actually present. -/
structure SchemaError where
  missing : List String
  found : List String
deriving DecidableEq

/-- Column normalization (lines 147-158): either a `SchemaError` carrying the
missing canonical fields and the found columns, or the canonical-to-input
column mapping used for the rename. -/
def normalizeColumns (cols : List String) :
    Except SchemaError (List (String × String)) :=
  let normalized := COLUMN_ALIASES.filterMap
    (fun p => (resolveField cols p.2).map (fun c => (p.1, c)))
  if missingFields cols = [] then .ok normalized
  else .error ⟨missingFields cols, cols⟩

/-- A raw row after column normalization but before cleaning: `none` stands
for a null `case_id`/`event` or a timestamp `pd.to_datetime` could not parse
(coerced to NaT). -/
structure RawRow where
  case_id : Option String
  timestamp : Option ℚ
  event : Option String

/-- The cleaning step `df.dropna(subset=["timestamp", "case_id", "event"])`
(lines 164-165): rows with any missing field are dropped silently. -/
def cleanRows (rs : List RawRow) : List Event :=
  rs.filterMap (fun r =>
    match r.case_id, r.timestamp, r.event with
    | some c, some ts, some e => some ⟨c, e, ts⟩
    | _, _, _ => none)

/-- The monthly risk recorded for an SLA type in a `sla_by_type` mapping
(0 when the type is absent). -/
def riskOf (sla : List (SlaType × SlaStats)) (t : SlaType) : ℚ :=
  match lookupT sla t with
  | some v => v.monthly_risk_eur_est
  | none => 0

/-- The fixed expected-reduction fraction of the advice rule for a type. -/
def fracOf : SlaType → ℚ
  | .first_response => 1/4
  | .waiting => 2/5
  | .resolution => 3/10
  | .other => 0

/-- The contribution of one ranking entry to the advice list: nothing for a
non-positive risk (the `continue`), else the item for the type. -/
def adviceEntry (p : SlaType × ℚ) : Option Advice :=
  if p.2 ≤ 0 then none else adviceItem p.1 p.2

instance instTotalTs : IsTotal Event (fun a b => a.ts ≤ b.ts) :=
  ⟨fun a b => le_total a.ts b.ts⟩

instance instTransTs : IsTrans Event (fun a b => a.ts ≤ b.ts) :=
  ⟨fun _ _ _ hab hbc => le_trans hab hbc⟩

instance instTotalRisk : IsTotal (SlaType × ℚ) (fun a b => b.2 ≤ a.2) :=
  ⟨fun a b => le_total b.2 a.2⟩

instance instTransRisk : IsTrans (SlaType × ℚ) (fun a b => b.2 ≤ a.2) :=
  ⟨fun _ _ _ hab hbc => le_trans hbc hab⟩

/-- Concrete test log: one case, four `waiting` events 0.0h, 0.1h, 0.6h, 0.9h
(analysis period 0.9h, below the 1h extrapolation threshold, but with a
breaching step of positive impact). -/
def rows0 : List Event :=
  [⟨"a", "waiting", 0⟩, ⟨"a", "waiting", 1/10⟩,
   ⟨"a", "waiting", 3/5⟩, ⟨"a", "waiting", 9/10⟩]

/-- Concrete test log: one case, two events 2h apart. -/
def rows4 : List Event := [⟨"c", "x", 0⟩, ⟨"c", "x", 2⟩]

/-- Concrete `sla_by_type` with two types of equal positive monthly risk. -/
def sla6 : List (SlaType × SlaStats) :=
  [(.first_response, ⟨20, 5, 75, 10⟩), (.waiting, ⟨20, 5, 75, 10⟩)]

/-- Concrete per-type stats: compliance 85% (a medium signal) and monthly
risk 2000 (a medium signal). -/
def s85 : SlaStats := ⟨20, 3, 85, 2000⟩

/-- Concrete `sla_by_type` generating six medium signals. -/
def sla7 : List (SlaType × SlaStats) :=
  [(.first_response, s85), (.waiting, s85), (.resolution, s85)]

/-- Concrete history (after the current append) whose `first_response`
compliance declines 95 → 90 → 85. -/
def hist7 : List HistEntry :=
  [[(.first_response, ⟨20, 1, 95, 0⟩)], [(.first_response, ⟨20, 2, 90, 0⟩)], sla7]

/-
Theorems.
-/

theorem median_singleton (d : ℚ) : median [d] = d := by
  norm_num [median, sortRat, List.insertionSort, List.orderedInsert]

/-- Claim C2: for every step in the step set, impact equals
max(0, duration − baseline of the step's event label), and the `is_delay`
flag is set iff duration is strictly greater than 1.5 times that baseline. -/
theorem C2_impact_and_delay (ss : List Step) :
    ∀ a ∈ annotateSteps ss,
      a.impact_hours = max 0 (a.duration_hours - baseline ss a.event) ∧
      (a.is_delay = true ↔ (3/2 : ℚ) * baseline ss a.event < a.duration_hours) := by
  intro a ha
  obtain ⟨s, _, rfl⟩ := List.mem_map.mp ha
  exact ⟨rfl, decide_eq_true_iff⟩

/-- Witness for C2 on a one-step log. -/
theorem C2_witness :
    (AnnStep.mk "c" "x" 5 5 false 0 .other false).impact_hours =
      max 0 ((AnnStep.mk "c" "x" 5 5 false 0 .other false).duration_hours -
        baseline [⟨"c", "x", 5⟩] (AnnStep.mk "c" "x" 5 5 false 0 .other false).event) ∧
    ((AnnStep.mk "c" "x" 5 5 false 0 .other false).is_delay = true ↔
      (3/2 : ℚ) * baseline [⟨"c", "x", 5⟩] (AnnStep.mk "c" "x" 5 5 false 0 .other false).event <
        (AnnStep.mk "c" "x" 5 5 false 0 .other false).duration_hours) :=
  C2_impact_and_delay [⟨"c", "x", 5⟩] _ (by
    have h : annotateSteps [⟨"c", "x", 5⟩] =
        [⟨"c", "x", 5, 5, false, 0, .other, false⟩] := by
      norm_num +decide [annotateSteps, baseline, median, sortRat,
        List.insertionSort, List.orderedInsert, List.filter, map_sla_type, strContains]
    rw [h]
    exact List.mem_singleton.mpr rfl)

/-- Claim C3: the baseline of an event label is the interpolating median of
the durations of the steps carrying that label; a label with exactly one
step has that step's duration as baseline, and that step's impact is 0. -/
theorem C3_baseline_median (ss : List Step) (ev : String) :
    baseline ss ev =
      median ((ss.filter (fun s => s.event = ev)).map (·.duration_hours)) ∧
    (∀ s ∈ ss, (ss.filter (fun s' => s'.event = s.event)).length = 1 →
      baseline ss s.event = s.duration_hours) ∧
    (∀ a ∈ annotateSteps ss, (ss.filter (fun s' => s'.event = a.event)).length = 1 →
      a.impact_hours = 0) := by
  have key : ∀ s ∈ ss, (ss.filter (fun s' => s'.event = s.event)).length = 1 →
      baseline ss s.event = s.duration_hours := by
    intro s hs h1
    have hmem : s ∈ ss.filter (fun s' => s'.event = s.event) :=
      List.mem_filter.mpr ⟨hs, by simp⟩
    obtain ⟨a, ha⟩ := List.length_eq_one.mp h1
    rw [ha] at hmem
    have hsa := List.mem_singleton.mp hmem
    rw [baseline, ha, ← hsa]
    simpa using median_singleton s.duration_hours
  refine ⟨rfl, key, ?_⟩
  intro a ha h1
  obtain ⟨s, hs, rfl⟩ := List.mem_map.mp ha
  have hb := key s hs h1
  show max 0 (s.duration_hours - baseline ss s.event) = 0
  rw [hb]
  simp

/-- Witness for C3 on a one-step log. -/
theorem C3_witness :
    baseline [⟨"c", "x", 5⟩] (Step.mk "c" "x" 5).event = (Step.mk "c" "x" 5).duration_hours :=
  (C3_baseline_median [⟨"c", "x", 5⟩] "x").2.1 ⟨"c", "x", 5⟩ (List.mem_singleton.mpr rfl)
    (by decide)

theorem pairsL_mem : ∀ (l : List Event) (p : Event × Event), p ∈ pairsL l →
    ∃ i, ∃ h : i + 1 < l.length,
      l.get ⟨i, Nat.lt_of_succ_lt h⟩ = p.1 ∧ l.get ⟨i + 1, h⟩ = p.2 := by
  intro l
  induction l with
  | nil => intro p hp; simp [pairsL] at hp
  | cons a t ih =>
    cases t with
    | nil => intro p hp; simp [pairsL] at hp
    | cons b t2 =>
      intro p hp
      rw [pairsL] at hp
      rcases List.mem_cons.mp hp with h | h
      · subst h
        exact ⟨0, by simp, rfl, rfl⟩
      · obtain ⟨i, hlt, h1, h2⟩ := ih p h
        exact ⟨i + 1, by simpa using Nat.succ_lt_succ hlt, h1, h2⟩

/-- Claim C4: every emitted step has duration ≥ 0, and every step pairs an
event with the immediately following event of the same (timestamp-sorted)
case group — in particular the last-in-time event of a case is never the
source of a step; the per-case sort is a sorted permutation of the case's
rows. -/
theorem C4_steps_shape (rows : List Event) :
    (∀ s ∈ steps rows, 0 ≤ s.duration_hours ∧
      ∃ c ∈ caseIds rows,
        ∃ i, ∃ h : i + 1 < (sortRows (rows.filter (fun r => r.case_id = c))).length,
          s = stepOf
            ((sortRows (rows.filter (fun r => r.case_id = c))).get ⟨i, Nat.lt_of_succ_lt h⟩)
            ((sortRows (rows.filter (fun r => r.case_id = c))).get ⟨i + 1, h⟩)) ∧
    (∀ l : List Event,
      (sortRows l).Perm l ∧ List.Sorted (fun a b => a.ts ≤ b.ts) (sortRows l)) := by
  constructor
  · intro s hs
    have h0 := List.mem_filter.mp hs
    refine ⟨of_decide_eq_true h0.2, ?_⟩
    obtain ⟨c, hc, hstep⟩ := List.mem_flatMap.mp h0.1
    obtain ⟨p, hp, rfl⟩ := List.mem_map.mp hstep
    obtain ⟨i, h, h1, h2⟩ := pairsL_mem _ p hp
    exact ⟨c, hc, i, h, by rw [h1, h2]⟩
  · intro l
    exact ⟨List.perm_insertionSort _ l, List.sorted_insertionSort _ l⟩

theorem lookupT_mem_keys {β : Type} {sla : List (SlaType × β)} {t : SlaType} {v : β}
    (h : lookupT sla t = some v) : t ∈ sla.map Prod.fst := by
  induction sla with
  | nil => simp [lookupT] at h
  | cons p rest ih =>
    rw [lookupT] at h
    by_cases hp : p.1 = t
    · exact List.mem_cons.mpr (Or.inl hp.symm)
    · rw [if_neg hp] at h
      exact List.mem_cons.mpr (Or.inr (ih h))

theorem mem_trendSignals_iff (hist : List HistEntry) (sla : List (SlaType × SlaStats))
    (t : SlaType) (sev : Sev) :
    Signal.mk .negatieve_trend sev t ∈ trendSignals hist sla ↔
      sev = .high ∧ t ∈ sla.map Prod.fst ∧ trendFires hist t = true := by
  rw [trendSignals, List.mem_filterMap]
  constructor
  · rintro ⟨t', ht', hf⟩
    by_cases h : trendFires hist t' = true
    · rw [if_pos h] at hf
      obtain ⟨_, hsev, ht⟩ := Signal.mk.injEq .negatieve_trend .high t' .negatieve_trend sev t
        ▸ Option.some.injEq _ _ ▸ hf
      exact ⟨hsev.symm, ht ▸ ht', ht ▸ h⟩
    · rw [if_neg h] at hf
      exact absurd hf (by simp)
  · rintro ⟨rfl, hmem, hfire⟩
    exact ⟨t, hmem, by rw [if_pos hfire]⟩

theorem decreasing3_iff (l : List (Option ℚ)) :
    decreasing3 l = true ↔ ∃ a b c, l = [some a, some b, some c] ∧ b < a ∧ c < b := by
  rcases l with _ | ⟨x, _ | ⟨y, _ | ⟨z, _ | ⟨w, rest⟩⟩⟩⟩
  · simp [decreasing3]
  · cases x <;> simp [decreasing3]
  · cases x <;> cases y <;> simp [decreasing3]
  · cases x <;> cases y <;> cases z <;> simp [decreasing3, and_assoc]
  · simp [decreasing3]

theorem trendFires_iff (hist : List HistEntry) (t : SlaType) :
    trendFires hist t = true ↔
      3 ≤ hist.length ∧
        ∃ a b c, comps3 hist t = [some a, some b, some c] ∧ b < a ∧ c < b := by
  rw [trendFires]
  by_cases h3 : 3 ≤ hist.length
  · rw [if_pos h3, decreasing3_iff]
    simp [h3]
  · rw [if_neg h3]
    simp [h3]

theorem comps3_append (pre : List HistEntry) (sla : HistEntry) (t : SlaType)
    (h2 : 2 ≤ pre.length) :
    ∃ h0 h1 : HistEntry, comps3 (pre ++ [sla]) t =
      [(lookupT h0 t).map (fun v : SlaStats => v.compliance_pct),
       (lookupT h1 t).map (fun v : SlaStats => v.compliance_pct),
       (lookupT sla t).map (fun v : SlaStats => v.compliance_pct)] := by
  rw [comps3]
  have hlen : (pre ++ [sla]).length = pre.length + 1 := by simp
  rw [hlen, List.drop_append_of_le_length (by omega)]
  have hL : (pre.drop (pre.length + 1 - 3)).length = 2 := by
    rw [List.length_drop]
    omega
  obtain ⟨h0, h1, hdrop⟩ := List.length_eq_two.mp hL
  rw [hdrop]
  exact ⟨h0, h1, by simp⟩

/-- Claim C5: the declining-trend signal for an SLA type is in the generated
trend signals iff the (post-append) history has at least 3 snapshots and the
last three compliance values for that type are present and strictly
decreasing; its severity is always high.  `pre` is the prior history, to
which the run appends the current `sla_by_type` before the check. -/
theorem C5_declining_trend (pre : List HistEntry) (sla : List (SlaType × SlaStats))
    (t : SlaType) (sev : Sev) :
    Signal.mk .negatieve_trend sev t ∈ trendSignals (pre ++ [sla]) sla ↔
      sev = .high ∧ 3 ≤ (pre ++ [sla]).length ∧
        ∃ c0 c1 c2, comps3 (pre ++ [sla]) t = [some c0, some c1, some c2] ∧
          c1 < c0 ∧ c2 < c1 := by
  rw [mem_trendSignals_iff, trendFires_iff]
  constructor
  · rintro ⟨hs, _, h3, shape⟩
    exact ⟨hs, h3, shape⟩
  · rintro ⟨hs, h3, c0, c1, c2, hc, hlt1, hlt2⟩
    refine ⟨hs, ?_, h3, c0, c1, c2, hc, hlt1, hlt2⟩
    have h2 : 2 ≤ pre.length := by
      have := h3
      simp only [List.length_append, List.length_singleton] at this
      omega
    obtain ⟨h0, h1, hc'⟩ := comps3_append pre sla t h2
    rw [hc] at hc'
    simp only [List.cons.injEq] at hc'
    obtain ⟨v, hv, _⟩ := Option.map_eq_some'.mp hc'.2.2.1.symm
    exact lookupT_mem_keys hv

theorem adviceLoop_eq (ps : List (SlaType × ℚ)) :
    ∀ acc : List Advice, acc.length < 3 →
      adviceLoop ps acc = acc ++ (ps.filterMap adviceEntry).take (3 - acc.length) := by
  induction ps with
  | nil => intro acc _; simp [adviceLoop]
  | cons p rest ih =>
    intro acc hacc
    rcases p with ⟨t, r⟩
    rw [adviceLoop]
    by_cases hr : r ≤ 0
    · rw [if_pos hr]
      have he : adviceEntry (t, r) = none := by rw [adviceEntry, if_pos hr]
      rw [List.filterMap_cons, he]
      exact ih acc hacc
    · rw [if_neg hr]
      have he : adviceEntry (t, r) = adviceItem t r := by rw [adviceEntry, if_neg hr]
      cases hitem : adviceItem t r with
      | none =>
        simp only [hitem]
        have h3 : ¬ 3 ≤ acc.length := by omega
        rw [if_neg h3, List.filterMap_cons, he, hitem]
        exact ih acc hacc
      | some a =>
        simp only [hitem]
        rw [List.filterMap_cons, he, hitem]
        by_cases h3 : 3 ≤ (acc ++ [a]).length
        · rw [if_pos h3]
          have hlen : acc.length = 2 := by
            simp only [List.length_append, List.length_singleton] at h3
            omega
          have ht : 3 - acc.length = 1 := by omega
          rw [ht, List.take_succ_cons, List.take_zero]
        · rw [if_neg h3]
          have hlen : (acc ++ [a]).length < 3 := by omega
          rw [ih (acc ++ [a]) hlen]
          have ht : 3 - acc.length = (3 - (acc ++ [a]).length) + 1 := by
            simp only [List.length_append, List.length_singleton]
            omega
          rw [ht, List.take_succ_cons, List.append_assoc]
          rfl

theorem aiAdvice_eq (sla : List (SlaType × SlaStats)) :
    aiAdvice sla = ((ranking sla).filterMap adviceEntry).take 3 := by
  rw [aiAdvice, adviceLoop_eq _ [] (by norm_num)]
  simp

theorem adviceEntry_some {q : SlaType × ℚ} {a : Advice} (h : adviceEntry q = some a) :
    a.sla_type = q.1 ∧ 0 < q.2 ∧
      a.monthly_risk_reduction_est = pyRound0 (q.2 * fracOf q.1) := by
  rcases q with ⟨t, r⟩
  rw [adviceEntry] at h
  by_cases hr : r ≤ 0
  · rw [if_pos hr] at h
    cases h
  · rw [if_neg hr] at h
    have hpos : (0 : ℚ) < r := lt_of_not_le hr
    cases t <;> simp [adviceItem] at h <;> simp [← h, fracOf, hpos]

theorem lookupT_of_nodup {sla : List (SlaType × SlaStats)}
    (hnd : (sla.map Prod.fst).Nodup) {p : SlaType × SlaStats} (hp : p ∈ sla) :
    lookupT sla p.1 = some p.2 := by
  induction sla with
  | nil => cases hp
  | cons q rest ih =>
    rw [List.map_cons, List.nodup_cons] at hnd
    rcases List.mem_cons.mp hp with rfl | hp'
    · rw [lookupT, if_pos rfl]
    · rw [lookupT]
      have hne : q.1 ≠ p.1 := by
        intro he
        exact hnd.1 (he ▸ List.mem_map.mpr ⟨p, hp', rfl⟩)
      rw [if_neg hne]
      exact ih hnd.2 hp'

theorem riskOf_of_mem_ranking {sla : List (SlaType × SlaStats)}
    (hnd : (sla.map Prod.fst).Nodup) {q : SlaType × ℚ} (hq : q ∈ ranking sla) :
    riskOf sla q.1 = q.2 := by
  have hq' : q ∈ sla.map (fun p => (p.1, p.2.monthly_risk_eur_est)) :=
    (List.perm_insertionSort _ _).mem_iff.mp hq
  obtain ⟨p, hp, he⟩ := List.mem_map.mp hq'
  rw [← he, riskOf, lookupT_of_nodup hnd hp]

theorem pairwise_advice (sla : List (SlaType × SlaStats)) :
    ∀ ps : List (SlaType × ℚ),
      ps.Pairwise (fun a b => b.2 ≤ a.2) →
      (∀ q ∈ ps, riskOf sla q.1 = q.2) →
      (ps.filterMap adviceEntry).Pairwise
        (fun a b => riskOf sla b.sla_type ≤ riskOf sla a.sla_type) := by
  intro ps
  induction ps with
  | nil => intro _ _; simp
  | cons p rest ih =>
    intro hpw hkey
    rw [List.pairwise_cons] at hpw
    cases he : adviceEntry p with
    | none =>
      simp only [List.filterMap_cons, he]
      exact ih hpw.2 (fun q hq => hkey q (List.mem_cons.mpr (Or.inr hq)))
    | some a =>
      simp only [List.filterMap_cons, he]
      rw [List.pairwise_cons]
      constructor
      · intro b hb
        obtain ⟨q, hq, hbe⟩ := List.mem_filterMap.mp hb
        obtain ⟨hbt, _, _⟩ := adviceEntry_some hbe
        obtain ⟨hat, _, _⟩ := adviceEntry_some he
        rw [hbt, hat, hkey q (List.mem_cons.mpr (Or.inr hq)),
          hkey p (List.mem_cons.mpr (Or.inl rfl))]
        exact hpw.1 q hq
      · exact ih hpw.2 (fun q hq => hkey q (List.mem_cons.mpr (Or.inr hq)))

/-- Claim C6 (amended): the advice list has at most 3 items, every item's
type has strictly positive monthly risk, the item's projected reduction is
the risk times the rule's fraction rounded half-to-even to a whole amount,
and the list is ordered by non-increasing (not necessarily strictly
decreasing) monthly risk. -/
theorem C6_advice_ranked (sla : List (SlaType × SlaStats))
    (hnd : (sla.map Prod.fst).Nodup) :
    (aiAdvice sla).length ≤ 3 ∧
    (∀ a ∈ aiAdvice sla, 0 < riskOf sla a.sla_type ∧
        a.monthly_risk_reduction_est =
          pyRound0 (riskOf sla a.sla_type * fracOf a.sla_type)) ∧
    (aiAdvice sla).Pairwise
      (fun a b => riskOf sla b.sla_type ≤ riskOf sla a.sla_type) := by
  rw [aiAdvice_eq]
  refine ⟨List.length_take_le _ _, ?_, ?_⟩
  · intro a ha
    obtain ⟨q, hq, he⟩ := List.mem_filterMap.mp (List.take_subset _ _ ha)
    obtain ⟨hat, hpos, hred⟩ := adviceEntry_some he
    have hr := riskOf_of_mem_ranking hnd hq
    rw [hat, hr]
    exact ⟨hpos, hred⟩
  · exact List.Pairwise.sublist (List.take_sublist _ _)
      (pairwise_advice sla (ranking sla) (List.sorted_insertionSort _ _)
        (fun q hq => riskOf_of_mem_ranking hnd hq))

/-- Counterexample to C6 as stated: with two SLA types of equal positive
monthly risk 10, the advice list is not strictly descending by risk, and the
first item's projected reduction is the rounded 2, not the exact
10 × 0.25 = 2.5. -/
theorem C6_counterexample :
    ¬ ((aiAdvice sla6).Pairwise
        (fun a b => riskOf sla6 b.sla_type < riskOf sla6 a.sla_type) ∧
       ∀ a ∈ aiAdvice sla6, a.monthly_risk_reduction_est =
         riskOf sla6 a.sla_type * fracOf a.sla_type) := by
  have he : aiAdvice sla6 = [⟨.first_response, 2⟩, ⟨.waiting, 4⟩] := by
    norm_num +decide [aiAdvice, ranking, adviceLoop, adviceItem, sla6,
      List.insertionSort, List.orderedInsert, pyRound0, roundHalfEven]
  intro h
  have h1 := h.1
  rw [he, List.pairwise_cons] at h1
  have := h1.1 ⟨.waiting, 4⟩ (List.mem_singleton.mpr rfl)
  norm_num [riskOf, lookupT, sla6] at this

/-- Witness for C6 (amended) at a concrete two-type input. -/
theorem C6_witness : (aiAdvice sla6).length ≤ 3 :=
  (C6_advice_ranked sla6 (by decide)).1

theorem mem_ite_singleton {c : Prop} [Decidable c] {x s : Signal} :
    (s ∈ if c then [x] else []) ↔ c ∧ s = x := by
  by_cases hc : c
  · simp [hc]
  · simp [hc]

theorem mem_baseSignals_iff (sla : List (SlaType × SlaStats)) (s : Signal) :
    s ∈ baseSignals sla ↔ ∃ p ∈ sla,
      ((p.2.compliance_pct < 90 ∧
        s = ⟨.lage_compliance,
              if p.2.compliance_pct < 80 then .high else .medium, p.1⟩) ∨
       (1000 ≤ p.2.monthly_risk_eur_est ∧
        s = ⟨.financieel_risico,
              if 10000 ≤ p.2.monthly_risk_eur_est then .high else .medium, p.1⟩)) := by
  rw [baseSignals, List.mem_flatMap]
  constructor
  · rintro ⟨p, hp, hin⟩
    rcases List.mem_append.mp hin with h | h
    · obtain ⟨hc, hs⟩ := mem_ite_singleton.mp h
      exact ⟨p, hp, Or.inl ⟨hc, hs⟩⟩
    · obtain ⟨hc, hs⟩ := mem_ite_singleton.mp h
      exact ⟨p, hp, Or.inr ⟨hc, hs⟩⟩
  · rintro ⟨p, hp, h | h⟩
    · exact ⟨p, hp, List.mem_append.mpr (Or.inl (mem_ite_singleton.mpr h))⟩
    · exact ⟨p, hp, List.mem_append.mpr (Or.inr (mem_ite_singleton.mpr h))⟩

theorem trendSignals_shape {hist : List HistEntry} {sla : List (SlaType × SlaStats)}
    {s : Signal} (h : s ∈ trendSignals hist sla) :
    s.type = .negatieve_trend ∧ s.severity = .high := by
  obtain ⟨t', _, hf⟩ := List.mem_filterMap.mp h
  by_cases hc : trendFires hist t' = true
  · rw [if_pos hc] at hf
    cases hf
    exact ⟨rfl, rfl⟩
  · rw [if_neg hc] at hf
    cases hf

theorem mem_generated_lage (sla : List (SlaType × SlaStats)) (hist : List HistEntry)
    (t : SlaType) (sev : Sev) :
    Signal.mk .lage_compliance sev t ∈ generatedSignals sla hist ↔
      ∃ v, (t, v) ∈ sla ∧ v.compliance_pct < 90 ∧
        sev = (if v.compliance_pct < 80 then Sev.high else Sev.medium) := by
  rw [generatedSignals, List.mem_append]
  constructor
  · rintro (hb | ht)
    · obtain ⟨p, hp, hdis⟩ := (mem_baseSignals_iff _ _).mp hb
      rcases hdis with ⟨hc, he⟩ | ⟨_, he⟩
      · simp only [Signal.mk.injEq] at he
        obtain ⟨_, hsev, hts⟩ := he
        exact ⟨p.2, by rw [hts]; simpa using hp, hc, hsev⟩
      · simp only [Signal.mk.injEq] at he
        exact SigType.noConfusion he.1
    · exact absurd (trendSignals_shape ht).1 (by simp)
  · rintro ⟨v, hv, hc, rfl⟩
    exact Or.inl ((mem_baseSignals_iff _ _).mpr ⟨(t, v), hv, Or.inl ⟨hc, rfl⟩⟩)

theorem mem_generated_fin (sla : List (SlaType × SlaStats)) (hist : List HistEntry)
    (t : SlaType) (sev : Sev) :
    Signal.mk .financieel_risico sev t ∈ generatedSignals sla hist ↔
      ∃ v, (t, v) ∈ sla ∧ 1000 ≤ v.monthly_risk_eur_est ∧
        sev = (if 10000 ≤ v.monthly_risk_eur_est then Sev.high else Sev.medium) := by
  rw [generatedSignals, List.mem_append]
  constructor
  · rintro (hb | ht)
    · obtain ⟨p, hp, hdis⟩ := (mem_baseSignals_iff _ _).mp hb
      rcases hdis with ⟨_, he⟩ | ⟨hc, he⟩
      · simp only [Signal.mk.injEq] at he
        exact SigType.noConfusion he.1
      · simp only [Signal.mk.injEq] at he
        obtain ⟨_, hsev, hts⟩ := he
        exact ⟨p.2, by rw [hts]; simpa using hp, hc, hsev⟩
    · exact absurd (trendSignals_shape ht).1 (by simp)
  · rintro ⟨v, hv, hc, rfl⟩
    exact Or.inl ((mem_baseSignals_iff _ _).mpr ⟨(t, v), hv, Or.inr ⟨hc, rfl⟩⟩)

theorem mem_generated_neg (sla : List (SlaType × SlaStats)) (hist : List HistEntry)
    (t : SlaType) (sev : Sev) :
    Signal.mk .negatieve_trend sev t ∈ generatedSignals sla hist ↔
      sev = .high ∧ t ∈ sla.map Prod.fst ∧ trendFires hist t = true := by
  rw [generatedSignals, List.mem_append, mem_trendSignals_iff]
  constructor
  · rintro (hb | ht)
    · obtain ⟨p, _, hdis⟩ := (mem_baseSignals_iff _ _).mp hb
      rcases hdis with ⟨_, he⟩ | ⟨_, he⟩ <;> simp only [Signal.mk.injEq] at he <;>
        exact SigType.noConfusion he.1
    · exact ht
  · exact fun h => Or.inr h

/-- Claim C7 (amended): the reported `upgrade_signals` are the first 5
generated signals in generation order (per-type compliance and risk signals
in the fixed type order, then trend signals) — hence at most 5 — and the
generation thresholds are: compliance < 90 (high below 80, else medium),
monthly risk ≥ 1000 (high from 10000, else medium), and the 3-point
declining trend (always high). -/
theorem C7_signals (sla : List (SlaType × SlaStats)) (hist : List HistEntry) :
    upgradeSignalsOut sla hist = (generatedSignals sla hist).take 5 ∧
    (upgradeSignalsOut sla hist).length ≤ 5 ∧
    (∀ t sev, Signal.mk .lage_compliance sev t ∈ generatedSignals sla hist ↔
      ∃ v, (t, v) ∈ sla ∧ v.compliance_pct < 90 ∧
        sev = (if v.compliance_pct < 80 then Sev.high else Sev.medium)) ∧
    (∀ t sev, Signal.mk .financieel_risico sev t ∈ generatedSignals sla hist ↔
      ∃ v, (t, v) ∈ sla ∧ 1000 ≤ v.monthly_risk_eur_est ∧
        sev = (if 10000 ≤ v.monthly_risk_eur_est then Sev.high else Sev.medium)) ∧
    (∀ t sev, Signal.mk .negatieve_trend sev t ∈ generatedSignals sla hist ↔
      sev = .high ∧ t ∈ sla.map Prod.fst ∧ trendFires hist t = true) :=
  ⟨rfl, List.length_take_le _ _,
    fun t sev => mem_generated_lage sla hist t sev,
    fun t sev => mem_generated_fin sla hist t sev,
    fun t sev => mem_generated_neg sla hist t sev⟩

/-- Counterexample to C7 as stated: with three types at compliance 85% and
risk 2000 plus a declining first_response trend, seven signals are
generated; the reported list keeps the first five (all medium) and drops the
high-severity trend signal, so it is not the top 5 by severity. -/
theorem C7_counterexample :
    Signal.mk .negatieve_trend .high .first_response ∈ generatedSignals sla7 hist7 ∧
    Signal.mk .negatieve_trend .high .first_response ∉ upgradeSignalsOut sla7 hist7 ∧
    Signal.mk .lage_compliance .medium .first_response ∈ upgradeSignalsOut sla7 hist7 := by
  have hg : generatedSignals sla7 hist7 =
      [⟨.lage_compliance, .medium, .first_response⟩,
       ⟨.financieel_risico, .medium, .first_response⟩,
       ⟨.lage_compliance, .medium, .waiting⟩,
       ⟨.financieel_risico, .medium, .waiting⟩,
       ⟨.lage_compliance, .medium, .resolution⟩,
       ⟨.financieel_risico, .medium, .resolution⟩,
       ⟨.negatieve_trend, .high, .first_response⟩] := by
    norm_num +decide [generatedSignals, baseSignals, trendSignals, trendFires,
      decreasing3, comps3, lookupT, sla7, hist7, s85, List.flatMap]
  refine ⟨?_, ?_, ?_⟩
  · rw [hg]
    decide
  · rw [upgradeSignalsOut, hg]
    decide
  · rw [upgradeSignalsOut, hg]
    decide

theorem resolveField_eq_none {cols opts : List String} :
    resolveField cols opts = none ↔ ∀ o ∈ opts, o ∉ cols := by
  rw [resolveField, List.find?_eq_none]
  simp

theorem mem_missingFields_iff {cols : List String} {f : String} :
    f ∈ missingFields cols ↔
      ∃ opts, (f, opts) ∈ COLUMN_ALIASES ∧ ∀ o ∈ opts, o ∉ cols := by
  rw [missingFields]
  simp only [List.mem_map, List.mem_filter]
  constructor
  · rintro ⟨p, ⟨hp, hnone⟩, rfl⟩
    exact ⟨p.2, hp, resolveField_eq_none.mp (Option.isNone_iff_eq_none.mp hnone)⟩
  · rintro ⟨opts, hmem, hall⟩
    exact ⟨(f, opts), ⟨hmem,
      Option.isNone_iff_eq_none.mpr (resolveField_eq_none.mpr hall)⟩, rfl⟩

theorem missingFields_eq_nil_iff {cols : List String} :
    missingFields cols = [] ↔ ∀ p ∈ COLUMN_ALIASES, ∃ o ∈ p.2, o ∈ cols := by
  rw [missingFields, List.map_eq_nil_iff, List.filter_eq_nil_iff]
  constructor
  · intro h p hp
    have := h p hp
    rcases ho : resolveField cols p.2 with _ | o
    · exact absurd (Option.isNone_iff_eq_none.mpr ho) (by simpa using this)
    · have := List.mem_of_find?_eq_some ho
      have hpr := List.find?_some ho
      exact ⟨o, this, by simpa using hpr⟩
  · intro h p hp
    obtain ⟨o, ho, hoc⟩ := h p hp
    have : (resolveField cols p.2).isSome := by
      rw [resolveField]
      exact List.find?_isSome.mpr ⟨o, ho, by simpa using hoc⟩
    simp only [Option.isNone_iff_eq_none]
    intro hc
    rw [hc] at this
    cases this

/-- Claim C8: column normalization fails with a `SchemaError` — naming the
missing canonical fields and the columns actually present — iff some
required canonical field has no matching synonym among the input columns;
otherwise it succeeds, and rows with an unparseable timestamp or a null
`case_id`/`event` are dropped silently by the cleaning step rather than
raising an error. -/
theorem C8_normalizer (cols : List String) (rs : List RawRow) :
    ((∃ e, normalizeColumns cols = .error e) ↔
      ∃ p ∈ COLUMN_ALIASES, ∀ o ∈ p.2, o ∉ cols) ∧
    (∀ e, normalizeColumns cols = .error e →
      (∀ f, f ∈ e.missing ↔
        ∃ opts, (f, opts) ∈ COLUMN_ALIASES ∧ ∀ o ∈ opts, o ∉ cols) ∧
      e.found = cols) ∧
    ((∀ p ∈ COLUMN_ALIASES, ∃ o ∈ p.2, o ∈ cols) →
      ∃ m, normalizeColumns cols = .ok m) ∧
    (∀ (r : RawRow) (rs' : List RawRow),
      (r.case_id = none ∨ r.timestamp = none ∨ r.event = none) →
      cleanRows (r :: rs') = cleanRows rs') ∧
    (∀ ev ∈ cleanRows rs, ∃ r ∈ rs,
      r.case_id = some ev.case_id ∧ r.timestamp = some ev.ts ∧
        r.event = some ev.event) := by
  refine ⟨?_, ?_, ?_, ?_, ?_⟩
  · constructor
    · rintro ⟨e, he⟩
      rw [normalizeColumns] at he
      by_cases h : missingFields cols = []
      · rw [if_pos h] at he
        cases he
      · obtain ⟨f, hf⟩ := List.exists_mem_of_ne_nil _ h
        obtain ⟨opts, hmem, hall⟩ := mem_missingFields_iff.mp hf
        exact ⟨(f, opts), hmem, hall⟩
    · rintro ⟨p, hp, hall⟩
      have hf : p.1 ∈ missingFields cols :=
        mem_missingFields_iff.mpr ⟨p.2, hp, hall⟩
      have hne : missingFields cols ≠ [] := by
        intro h
        rw [h] at hf
        cases hf
      rw [normalizeColumns]
      exact ⟨_, by rw [if_neg hne]⟩
  · intro e he
    rw [normalizeColumns] at he
    by_cases h : missingFields cols = []
    · rw [if_pos h] at he
      cases he
    · rw [if_neg h] at he
      cases he
      exact ⟨fun f => mem_missingFields_iff, rfl⟩
  · intro h
    rw [normalizeColumns, if_pos (missingFields_eq_nil_iff.mpr h)]
    exact ⟨_, rfl⟩
  · rintro ⟨c, ts, ev⟩ rs' h
    rcases c with _ | c <;> rcases ts with _ | ts <;> rcases ev with _ | ev <;>
      simp_all [cleanRows, List.filterMap_cons]
  · intro ev hev
    rw [cleanRows] at hev
    obtain ⟨r, hr, he⟩ := List.mem_filterMap.mp hev
    rcases r with ⟨c, ts, e⟩
    rcases c with _ | c <;> rcases ts with _ | ts <;> rcases e with _ | e <;>
      cases he
    exact ⟨⟨some c, some ts, some e⟩, hr, rfl, rfl, rfl⟩

/-- Witness for C8: with columns `case` and `time` the canonical `event`
field has no synonym, and the raised error names it. -/
theorem C8_witness :
    (∀ f, f ∈ (SchemaError.mk ["event"] ["case", "time"]).missing ↔
      ∃ opts, (f, opts) ∈ COLUMN_ALIASES ∧ ∀ o ∈ opts, o ∉ ["case", "time"]) ∧
    (SchemaError.mk ["event"] ["case", "time"]).found = ["case", "time"] :=
  (C8_normalizer ["case", "time"] []).2.1 ⟨["event"], ["case", "time"]⟩ rfl

theorem pyRound0_zero : pyRound0 0 = 0 := by
  norm_num [pyRound0, roundHalfEven]

theorem mem_slaByTypeAux {ts : List SlaType} {ann : List AnnStep} {eur : ℚ}
    {canE : Bool} {fac : ℚ} {p : SlaType × SlaStats}
    (hp : p ∈ slaByTypeAux ts ann eur canE fac) :
    ∃ t ∈ ts, p = (t, slaStats (ann.filter (fun a => a.sla_type = t)) eur canE fac) := by
  obtain ⟨t, ht, he⟩ := List.mem_filterMap.mp hp
  by_cases hc : (ann.filter (fun a => a.sla_type = t)).isEmpty = true
  · rw [if_pos hc] at he
    cases he
  · rw [if_neg hc] at he
    cases he
    exact ⟨t, ht, rfl⟩

theorem slaRisk_zero {ts : List SlaType} {ann : List AnnStep} {canE : Bool} {fac : ℚ} :
    ∀ p ∈ slaByTypeAux ts ann 0 canE fac, p.2.monthly_risk_eur_est = 0 := by
  intro p hp
  obtain ⟨t, _, rfl⟩ := mem_slaByTypeAux hp
  simp [slaStats, riskPeriodEur, lt_irrefl, pyRound0_zero]

theorem slaByTypeAux_hour_fields (ts : List SlaType) (ann : List AnnStep)
    (canE : Bool) (fac : ℚ) (r₁ r₂ : ℚ) :
    (slaByTypeAux ts ann r₁ canE fac).map
      (fun p => (p.1, p.2.steps, p.2.breaches, p.2.compliance_pct)) =
    (slaByTypeAux ts ann r₂ canE fac).map
      (fun p => (p.1, p.2.steps, p.2.breaches, p.2.compliance_pct)) := by
  induction ts with
  | nil => rfl
  | cons t rest ih =>
    simp only [slaByTypeAux, List.filterMap_cons] at ih ⊢
    by_cases hc : (ann.filter (fun a => a.sla_type = t)).isEmpty = true
    · simp only [if_pos hc]
      exact ih
    · simp only [if_neg hc, List.map_cons, ih]
      simp [slaStats]

/-- Claim C9: with rate 0 every currency field of the output is 0, while the
hour and compliance fields coincide with those computed under any positive
rate on the same data. -/
theorem C9_rate_decoupling (rows : List Event) (hist : List HistEntry) (r : ℚ)
    (hr : 0 < r) :
    (analyze rows 0 hist).total_impact_eur = 0 ∧
    (analyze rows 0 hist).monthly_eur_est = 0 ∧
    (analyze rows 0 hist).yearly_eur_est = 0 ∧
    (analyze rows 0 hist).potential_saving_eur = 0 ∧
    (∀ p ∈ (analyze rows 0 hist).sla_by_type, p.2.monthly_risk_eur_est = 0) ∧
    (analyze rows 0 hist).total_impact_hours = (analyze rows r hist).total_impact_hours ∧
    (analyze rows 0 hist).monthly_hours_est = (analyze rows r hist).monthly_hours_est ∧
    (analyze rows 0 hist).yearly_hours_est = (analyze rows r hist).yearly_hours_est ∧
    (analyze rows 0 hist).fte_equivalent = (analyze rows r hist).fte_equivalent ∧
    ((analyze rows 0 hist).sla_by_type).map
        (fun p => (p.1, p.2.steps, p.2.breaches, p.2.compliance_pct)) =
      ((analyze rows r hist).sla_by_type).map
        (fun p => (p.1, p.2.steps, p.2.breaches, p.2.compliance_pct)) := by
  refine ⟨?_, ?_, ?_, ?_, ?_, rfl, rfl, rfl, rfl, ?_⟩
  · simp only [analyze]
    apply List.sum_eq_zero
    intro x hx
    obtain ⟨a, _, rfl⟩ := List.mem_map.mp hx
    simp
  · simp only [analyze]
    simp
  · simp only [analyze]
    simp
  · simp only [analyze]
    simp
  · simp only [analyze]
    exact fun p hp => slaRisk_zero p hp
  · simp only [analyze]
    exact slaByTypeAux_hour_fields _ _ _ _ 0 r

/-- Witness for C9 at rate 100 on the short `waiting` log. -/
theorem C9_witness : (analyze rows0 0 []).total_impact_eur = 0 :=
  (C9_rate_decoupling rows0 [] 100 (by norm_num)).1

theorem aiAdvice_nil {sla : List (SlaType × SlaStats)}
    (h : ∀ p ∈ sla, p.2.monthly_risk_eur_est = 0) : aiAdvice sla = [] := by
  rw [aiAdvice_eq]
  have hnil : (ranking sla).filterMap adviceEntry = [] := by
    rw [List.filterMap_eq_nil_iff]
    intro q hq
    have hq' : q ∈ sla.map (fun p => (p.1, p.2.monthly_risk_eur_est)) :=
      (List.perm_insertionSort _ _).mem_iff.mp hq
    obtain ⟨p, hp, he⟩ := List.mem_map.mp hq'
    rw [adviceEntry, if_pos]
    rw [← he]
    simp [h p hp]
  rw [hnil]
  rfl

/-- Claim C10: with rate 0 the per-type monthly risks are all 0, advisory
candidates require strictly positive risk, so the advice list is empty. -/
theorem C10_no_advice (rows : List Event) (hist : List HistEntry) :
    (analyze rows 0 hist).ai_advice = [] := by
  simp only [analyze]
  exact aiAdvice_nil (fun p hp => slaRisk_zero p hp)

/-- Claim C1 (amended): below the 1-hour period threshold the
monthly/yearly/FTE/saving fields are all 0, but each SLA type's
`monthly_risk_eur_est` falls back to the rounded un-extrapolated period
risk, which need not be 0. -/
theorem C1_extrapolation_amended (rows : List Event) (rate : ℚ)
    (hist : List HistEntry) (h : periodHours rows < 1) :
    (analyze rows rate hist).monthly_hours_est = 0 ∧
    (analyze rows rate hist).monthly_eur_est = 0 ∧
    (analyze rows rate hist).yearly_hours_est = 0 ∧
    (analyze rows rate hist).yearly_eur_est = 0 ∧
    (analyze rows rate hist).fte_equivalent = 0 ∧
    (analyze rows rate hist).potential_saving_hours = 0 ∧
    (analyze rows rate hist).potential_saving_eur = 0 ∧
    (∀ p ∈ (analyze rows rate hist).sla_by_type,
      p.2.monthly_risk_eur_est =
        pyRound0 (riskPeriodEur
          ((annotateSteps (steps rows)).filter (fun a => a.sla_type = p.1)) rate)) := by
  have hc : decide ((1 : ℚ) ≤ periodHours rows) = false :=
    decide_eq_false (not_le.mpr h)
  refine ⟨?_, ?_, ?_, ?_, ?_, ?_, ?_, ?_⟩
  · simp only [analyze, hc]; simp
  · simp only [analyze, hc]; simp
  · simp only [analyze, hc]; simp
  · simp only [analyze, hc]; simp
  · simp only [analyze, hc]; simp
  · simp only [analyze, hc]; simp
  · simp only [analyze, hc]; simp
  · simp only [analyze, hc]
    intro p hp
    obtain ⟨t, _, rfl⟩ := mem_slaByTypeAux hp
    simp [slaStats]

/-- Witness for C1 (amended) on the short `waiting` log. -/
theorem C1_witness : (analyze rows0 100 []).monthly_hours_est = 0 :=
  (C1_extrapolation_amended rows0 100 [] (by norm_num [periodHours, rows0])).1

theorem mst_waiting : map_sla_type "waiting" = .waiting := by decide

theorem steps_rows0 : steps rows0 =
    [⟨"a", "waiting", 1/10⟩, ⟨"a", "waiting", 1/2⟩, ⟨"a", "waiting", 3/10⟩] := by
  norm_num [steps, rawSteps, caseIds, caseSteps, sortRows, pairsL, stepOf, rows0,
    List.insertionSort, List.orderedInsert, List.dedup, List.filter]

theorem base_rows0 :
    baseline [⟨"a", "waiting", 1/10⟩, ⟨"a", "waiting", 1/2⟩, ⟨"a", "waiting", 3/10⟩]
      "waiting" = 3/10 := by
  norm_num [baseline, median, sortRat, List.insertionSort, List.orderedInsert, List.filter]

theorem ann_rows0 : annotateSteps (steps rows0) =
    [⟨"a", "waiting", 1/10, 3/10, false, 0, .waiting, false⟩,
     ⟨"a", "waiting", 1/2, 3/10, true, 1/5, .waiting, true⟩,
     ⟨"a", "waiting", 3/10, 3/10, false, 0, .waiting, false⟩] := by
  rw [steps_rows0]
  simp only [annotateSteps, List.map, base_rows0]
  norm_num [mst_waiting]

theorem sla_rows0 : slaByType (annotateSteps (steps rows0)) 100 false 0 =
    [(.waiting, ⟨3, 1, 667/10, 20⟩)] := by
  rw [ann_rows0]
  norm_num +decide [slaByType, slaByTypeAux, slaStats, breachHours, riskPeriodEur,
    List.filterMap, List.filter, List.isEmpty, pyRound0, pyRound1, roundHalfEven]

theorem hph_rows0 : periodHours rows0 = 9/10 := by
  norm_num [periodHours, rows0]

/-- Counterexample to C1 as stated: on a 0.9h log with rate 100 the analysis
period is below 1 hour, yet the `waiting` SLA type reports a
`monthly_risk_eur_est` of 20 (the un-extrapolated period risk), so not every
monthly field is 0. -/
theorem C1_counterexample :
    (analyze rows0 100 []).period_hours < 1 ∧
    ¬ ((analyze rows0 100 []).monthly_hours_est = 0 ∧
       (analyze rows0 100 []).monthly_eur_est = 0 ∧
       (analyze rows0 100 []).yearly_hours_est = 0 ∧
       (analyze rows0 100 []).yearly_eur_est = 0 ∧
       (analyze rows0 100 []).fte_equivalent = 0 ∧
       (analyze rows0 100 []).potential_saving_hours = 0 ∧
       (analyze rows0 100 []).potential_saving_eur = 0 ∧
       ∀ p ∈ (analyze rows0 100 []).sla_by_type, p.2.monthly_risk_eur_est = 0) := by
  have hsla : (analyze rows0 100 []).sla_by_type =
      [(.waiting, ⟨3, 1, 667/10, 20⟩)] := by
    simp only [analyze, hph_rows0]
    norm_num [sla_rows0]
  constructor
  · simp only [analyze, hph_rows0]
    norm_num
  · intro h
    have := h.2.2.2.2.2.2.2 _ (by rw [hsla]; exact List.mem_singleton.mpr rfl)
    norm_num at this

/-- Witness for C4 on a two-event log. -/
theorem C4_witness :
    0 ≤ (Step.mk "c" "x" 2).duration_hours ∧
    ∃ c ∈ caseIds rows4,
      ∃ i, ∃ h : i + 1 < (sortRows (rows4.filter (fun r => r.case_id = c))).length,
        Step.mk "c" "x" 2 = stepOf
          ((sortRows (rows4.filter (fun r => r.case_id = c))).get ⟨i, Nat.lt_of_succ_lt h⟩)
          ((sortRows (rows4.filter (fun r => r.case_id = c))).get ⟨i + 1, h⟩) :=
  (C4_steps_shape rows4).1 ⟨"c", "x", 2⟩ (by
    have h : steps rows4 = [⟨"c", "x", 2⟩] := by
      norm_num [steps, rawSteps, caseIds, caseSteps, sortRows, pairsL, stepOf, rows4,
        List.insertionSort, List.orderedInsert, List.dedup, List.filter]
    rw [h]
    exact List.mem_singleton.mpr rfl)

end PD
